import Mathlib

/-!
Verification development for the anglerfish demultiplexing pipeline
(`src/anglerfish/demux/demux.py`, with the legacy variant in
`src/demux/demux.py`).  All sequence-like values (read ids, adaptor names,
cs strings, index sequences) are modelled as `List Char`; Python string
literals become character lists.  Python `int` fields become `Int`,
non-negative lengths become `Nat`.
-/

/-- Classic unit-cost Levenshtein edit distance, as computed by the
`Levenshtein.distance` library call in `parse_cs`. -/
def levDist : List Char → List Char → Nat
  | [], ys => ys.length
  | x :: xs, [] => (x :: xs).length
  | x :: xs, y :: ys =>
    if x = y then levDist xs ys
    else 1 + min (levDist xs ys) (min (levDist (x :: xs) ys) (levDist xs (y :: ys)))
  termination_by a b => a.length + b.length
  decreasing_by
  all_goals (simp [List.length_cons]; try omega)

/-- Is the character one of the four lower-case bases captured by the
regular expression group `([atcg])` in `parse_cs`. -/
def isBase (c : Char) : Bool :=
  c = 'a' || c = 't' || c = 'c' || c = 'g'

/-- The list of captured bases of `re.findall(r"\*n([atcg])", cs_string)`:
scan left to right; a `*n` followed by a base is a match consuming three
characters, anything else advances one character. -/
def csFind : List Char → List Char
  | '*' :: 'n' :: c :: rest =>
    if isBase c then c :: csFind rest
    else csFind ('n' :: c :: rest)
  | _ :: rest => csFind rest
  | [] => []
  termination_by l => l.length
  decreasing_by
  all_goals (simp [List.length_cons]; try omega)

/-- Whether the string contains an occurrence of the substitution-marker
pattern `*n` followed by a base (the same pattern `csFind` collects). -/
def hasTokenB : List Char → Bool
  | '*' :: 'n' :: c :: rest => isBase c || hasTokenB ('n' :: c :: rest)
  | _ :: rest => hasTokenB rest
  | [] => false
  termination_by l => l.length
  decreasing_by
  all_goals (simp [List.length_cons]; try omega)

/-- Holds on `some n` with `0 < n`: models Python `x is not None and x > 0`. -/
def posOpt : Option Nat → Bool
  | some n => decide (0 < n)
  | none => false

/-- Function `parse_cs` from `src/anglerfish/demux/demux.py`: recover the bases
spanning the masked index region from the cs string, trim UMIs
(`umi_before` takes precedence), and return the trimmed span together with
its Levenshtein distance to the lower-cased expected index sequence. -/
def parse_cs (cs_string : List Char) (index_seq : List Char)
    (umi_before umi_after : Option Nat) : List Char × Nat :=
  let bases_spanning_mask := csFind cs_string
  let bases_spanning_index_mask :=
    if posOpt umi_before then
      bases_spanning_mask.drop (umi_before.getD 0)
    else if posOpt umi_after then
      bases_spanning_mask.take (bases_spanning_mask.length - umi_after.getD 0)
    else
      bases_spanning_mask
  (bases_spanning_index_mask,
    levDist (index_seq.map Char.toLower) bases_spanning_index_mask)

theorem levDist_nil_right (l : List Char) : levDist l [] = l.length := by
  cases l <;> simp [levDist]

/-- Does the list start with a substitution-marker token `*n` followed by a
base (a match of the `parse_cs` regular expression at this position). -/
def tokenAt : List Char → Bool
  | '*' :: 'n' :: c :: _ => isBase c
  | _ => false

/-- No position of the list starts a substitution-marker token. -/
def tokenFreeB (l : List Char) : Bool :=
  l.tails.all (fun t => !tokenAt t)

/-- Predicate `MarkerDecomp cs bs` says the cs string decomposes into marker-free
filler segments interleaved with the substitution-marker tokens whose
observed bases are `bs`, in order. -/
inductive MarkerDecomp : List Char → List Char → Prop
  | nil (f : List Char) : tokenFreeB f = true → MarkerDecomp f []
  | cons (f : List Char) (b : Char) (rest bs : List Char) :
      tokenFreeB f = true → isBase b = true → MarkerDecomp rest bs →
      MarkerDecomp (f ++ '*' :: 'n' :: b :: rest) (b :: bs)

lemma tokenAt_cons3 (x y z : Char) (l : List Char) :
    tokenAt (x :: y :: z :: l) = if x = '*' ∧ y = 'n' then isBase z else false := by
  by_cases hx : x = '*'
  · subst hx
    by_cases hy : y = 'n'
    · subst hy; simp [tokenAt]
    · simp [tokenAt, hy]
  · simp [tokenAt, hx]

lemma tokenFreeB_cons (x : Char) (l : List Char) (h : tokenFreeB (x :: l) = true) :
    tokenFreeB l = true ∧ tokenAt (x :: l) = false := by
  simp [tokenFreeB, List.tails_cons, List.all_cons] at h ⊢
  exact ⟨h.2, h.1⟩

lemma csFind_cons3 (x y z : Char) (l : List Char) :
    csFind (x :: y :: z :: l) =
      if x = '*' ∧ y = 'n' ∧ isBase z = true then z :: csFind l
      else csFind (y :: z :: l) := by
  by_cases hx : x = '*'
  · subst hx
    by_cases hy : y = 'n'
    · subst hy
      by_cases hz : isBase z = true
      · simp [csFind, hz]
      · simp [csFind, hz]
    · simp [csFind, hy]
  · simp [csFind, hx]

lemma csFind_advance (x : Char) (l : List Char) (h : tokenAt (x :: l) = false) :
    csFind (x :: l) = csFind l := by
  cases l with
  | nil => simp [csFind]
  | cons y ys =>
    cases ys with
    | nil => simp [csFind]
    | cons z zs =>
      rw [csFind_cons3, if_neg]
      rintro ⟨h1, h2, h3⟩
      rw [tokenAt_cons3, if_pos ⟨h1, h2⟩] at h
      rw [h] at h3
      exact Bool.false_ne_true h3

lemma csFind_token (b : Char) (hb : isBase b = true) (rest : List Char) :
    csFind ('*' :: 'n' :: b :: rest) = b :: csFind rest := by
  simp [csFind, hb]

lemma tokenAt_boundary (x : Char) (f : List Char) (b : Char) (rest : List Char)
    (h : tokenAt (x :: f) = false) :
    tokenAt (x :: (f ++ '*' :: 'n' :: b :: rest)) = false := by
  cases f with
  | nil => simp [tokenAt_cons3]
  | cons y f' =>
    cases f' with
    | nil => simp [tokenAt_cons3, isBase]
    | cons z f'' =>
      rw [List.cons_append, List.cons_append, tokenAt_cons3]
      rw [tokenAt_cons3] at h
      exact h

lemma csFind_tokenFree (f : List Char) (hf : tokenFreeB f = true) : csFind f = [] := by
  induction f with
  | nil => simp [csFind]
  | cons x f' ih =>
    have h1 := tokenFreeB_cons x f' hf
    rw [csFind_advance x f' h1.2, ih h1.1]

lemma csFind_filler (b : Char) (hb : isBase b = true) (rest : List Char) :
    ∀ f : List Char, tokenFreeB f = true →
      csFind (f ++ '*' :: 'n' :: b :: rest) = b :: csFind rest := by
  intro f
  induction f with
  | nil =>
    intro _
    simpa using csFind_token b hb rest
  | cons x f' ih =>
    intro hf
    have h1 := tokenFreeB_cons x f' hf
    rw [List.cons_append, csFind_advance x _ (tokenAt_boundary x f' b rest h1.2), ih h1.1]

lemma markerDecomp_csFind (cs bs : List Char) (h : MarkerDecomp cs bs) :
    csFind cs = bs := by
  induction h with
  | nil f hf => exact csFind_tokenFree f hf
  | cons f b rest bs hf hb _ ih => rw [csFind_filler b hb rest f hf, ih]

/-- Claim C2: for a cs string made of exactly `k` substitution-marker
tokens (with observed bases `bs`, `k = bs.length`) separated by marker-free
filler, the span recovered by `parse_cs` before any UMI trimming is the
concatenation of the observed bases in order, so it has length `k`; with
zero markers the span is empty and the distance equals the length of the
expected index sequence. -/
theorem parse_cs_marker_span (cs bs idx : List Char) (h : MarkerDecomp cs bs) :
    (parse_cs cs idx none none).1 = bs ∧
    (parse_cs cs idx none none).1.length = bs.length ∧
    (bs = [] → parse_cs cs idx none none = ([], idx.length)) := by
  have hc := markerDecomp_csFind cs bs h
  refine ⟨?_, ?_, ?_⟩
  · simp [parse_cs, posOpt, hc]
  · simp [parse_cs, posOpt, hc]
  · intro hbs
    subst hbs
    simp [parse_cs, posOpt, hc, levDist_nil_right]

theorem parse_cs_marker_span_witness :
    (parse_cs (String.data ":4*na:3*nt") (String.data "at") none none).1 = ['a', 't'] := by
  have e : String.data ":4*na:3*nt" =
      (String.data ":4") ++ '*' :: 'n' :: 'a' ::
        ((String.data ":3") ++ '*' :: 'n' :: 't' :: ([] : List Char)) := by decide
  have h : MarkerDecomp (String.data ":4*na:3*nt") ['a', 't'] := by
    rw [e]
    exact MarkerDecomp.cons _ _ _ _ (by decide) (by decide)
      (MarkerDecomp.cons _ _ _ _ (by decide) (by decide) (MarkerDecomp.nil _ (by decide)))
  exact (parse_cs_marker_span _ _ (String.data "at") h).1

/-- Claim C3: UMI trimming in `parse_cs` is exclusive with documented
precedence: when both trim lengths are defined and positive only the
leading `umi_before` bases are removed (`umi_after` is ignored); when only
`umi_after` is positive (with `umi_before` absent or zero) only the
trailing `umi_after` bases are removed. -/
theorem parse_cs_umi_exclusive (cs idx : List Char) (b a : Nat)
    (hb : 0 < b) (ha : 0 < a) :
    (parse_cs cs idx (some b) (some a)).1 = (csFind cs).drop b ∧
    (parse_cs cs idx none (some a)).1 =
      (csFind cs).take ((csFind cs).length - a) ∧
    (parse_cs cs idx (some 0) (some a)).1 =
      (csFind cs).take ((csFind cs).length - a) := by
  refine ⟨?_, ?_, ?_⟩ <;> simp [parse_cs, posOpt, hb, ha]

theorem parse_cs_umi_exclusive_witness :
    (parse_cs (String.data "*na*nt*ng") (String.data "tg") (some 1) (some 1)).1 =
      (csFind (String.data "*na*nt*ng")).drop 1 ∧
    (parse_cs (String.data "*na*nt*ng") (String.data "tg") none (some 1)).1 =
      (csFind (String.data "*na*nt*ng")).take
        ((csFind (String.data "*na*nt*ng")).length - 1) ∧
    (parse_cs (String.data "*na*nt*ng") (String.data "tg") (some 0) (some 1)).1 =
      (csFind (String.data "*na*nt*ng")).take
        ((csFind (String.data "*na*nt*ng")).length - 1) :=
  parse_cs_umi_exclusive (String.data "*na*nt*ng") (String.data "tg") 1 1
    (by decide) (by decide)

/-- One parsed paf alignment record, as compiled into the `entry` dict by
`parse_paf_lines` in `src/anglerfish/demux/demux.py` (`iseq` and `sample`
are always initialised to `None` there). -/
structure Entry where
  read : List Char
  adapter : List Char
  rlen : Int
  rstart : Int
  rend : Int
  strand : List Char
  cg : List Char
  cs : List Char
  q : Int
  iseq : Option (List Char)
  sample : Option (List Char)
  deriving DecidableEq, Repr

/-- Python `str.split()` with no argument: split on runs of whitespace,
dropping empty fields. -/
def splitWsAux : List Char → List Char → List (List Char)
  | [], acc => if acc = [] then [] else [acc.reverse]
  | c :: rest, acc =>
    if c.isWhitespace then
      if acc = [] then splitWsAux rest []
      else acc.reverse :: splitWsAux rest []
    else splitWsAux rest (c :: acc)

/-- Python `line.split()`. -/
def splitWs (l : List Char) : List (List Char) :=
  splitWsAux l []

/-- Decimal digit accumulation for `int(...)` on the numeric paf columns. -/
def parseNatDigits (l : List Char) : Nat :=
  l.foldl (fun a c => a * 10 + (c.toNat - 48)) 0

/-- Python `int(...)` on a (well-formed) decimal column. -/
def parseIntPy : List Char → Int
  | '-' :: rest => -(parseNatDigits rest : Int)
  | l => (parseNatDigits l : Int)

/-- Python `adapter.split("_")[-1]`: the suffix after the last underscore
(the whole string when there is none). -/
def lastUnderscoreComponent (l : List Char) : List Char :=
  l.foldl (fun acc c => if c = '_' then [] else acc ++ [c]) []

/-- Result of processing one paf line inside the `for` loop of
`parse_paf_lines`: an entry keyed for the grouping dict, a logged
non-fatal skip, or an uncaught exception.  `crash` models the
`UnboundLocalError` raised by the `except IndexError` handler itself when
it formats the message with the variable `read` while `read` has never
been assigned (no previous line had a first column). -/
inductive PafStep where
  | ok (key : List Char) (e : Entry)
  | skip
  | crash
  deriving DecidableEq, Repr

/-- One iteration of the `parse_paf_lines` loop over the split columns of
a line.  `readBound` records whether the Python local `read` has been
assigned by this or any earlier iteration.  Column accesses in source
order: `paf_cols[0]` (binds `read`), `paf_cols[5]`, `paf_cols[1..4]`,
`paf_cols[-2]`, `paf_cols[-1]`, `paf_cols[11]`; an `IndexError` is caught
and the line skipped, but formatting the log message re-raises when
`read` is unbound. -/
def pafLineStep (complexId : Bool) (minQual : Int) (readBound : Bool)
    (paf_cols : List (List Char)) : PafStep :=
  if paf_cols.length = 0 then
    if readBound then .skip else .crash
  else if paf_cols.length < 6 then .skip
  else if paf_cols.length < 12 then .skip
  else
    let read := paf_cols.getD 0 []
    let adapter := paf_cols.getD 5 []
    let rlen := parseIntPy (paf_cols.getD 1 [])
    let rstart := parseIntPy (paf_cols.getD 2 [])
    let rend := parseIntPy (paf_cols.getD 3 [])
    let strand := paf_cols.getD 4 []
    let cg := paf_cols.getD (paf_cols.length - 2) []
    let cs := paf_cols.getD (paf_cols.length - 1) []
    let q := parseIntPy (paf_cols.getD 11 [])
    let key :=
      if complexId then
        let i5_or_i7 := lastUnderscoreComponent adapter
        let strand_str :=
          if strand = ['+'] then String.data "positive" else String.data "negative"
        read ++ '_' :: (i5_or_i7 ++ '_' :: strand_str)
      else read
    if q < minQual then .skip
    else .ok key ⟨read, adapter, rlen, rstart, rend, strand, cg, cs, q, none, none⟩

/-- Append an entry under its key, preserving dict insertion order. -/
def addEntry (entries : List (List Char × List Entry)) (key : List Char)
    (e : Entry) : List (List Char × List Entry) :=
  if (entries.lookup key).isSome then
    entries.map (fun p => if p.1 = key then (p.1, p.2 ++ [e]) else p)
  else entries ++ [(key, [e])]

def parse_paf_lines_aux (complexId : Bool) (minQual : Int) (readBound : Bool)
    (entries : List (List Char × List Entry)) :
    List (List Char) → Except Unit (List (List Char × List Entry))
  | [] => .ok entries
  | line :: rest =>
    let cols := splitWs line
    match pafLineStep complexId minQual readBound cols with
    | .crash => .error ()
    | .skip =>
      parse_paf_lines_aux complexId minQual (readBound || !cols.isEmpty) entries rest
    | .ok key e =>
      parse_paf_lines_aux complexId minQual true (addEntry entries key e) rest

/-- Function `parse_paf_lines` from `src/anglerfish/demux/demux.py`, over the raw
lines of the paf file; `.error ()` models an exception escaping to the
caller. -/
def parse_paf_lines (complexId : Bool) (minQual : Int)
    (lines : List (List Char)) : Except Unit (List (List Char × List Entry)) :=
  parse_paf_lines_aux complexId minQual false [] lines

/-- Claim C8, evaluated at the failing input: an input whose first line
has no columns (an empty line) is not skipped non-fatally - the
`except IndexError` handler references the never-assigned variable `read`
and the resulting error propagates to the caller. -/
theorem parse_paf_lines_crash_on_malformed_first_line :
    parse_paf_lines false 1 [[]] = .error () ∧
    pafLineStep false 1 false [] = .crash := by
  constructor <;> rfl

/-- Stable insertion by `rstart` (helper for `sortByRstart`). -/
def insertByRstart (e : Entry) : List Entry → List Entry
  | [] => [e]
  | x :: xs => if e.rstart ≤ x.rstart then e :: x :: xs else x :: insertByRstart e xs

/-- Python `sorted(entries, key=lambda l: l["rstart"])`: a stable sort on
the alignment start offset. -/
def sortByRstart : List Entry → List Entry
  | [] => []
  | e :: rest => insertByRstart e (sortByRstart rest)

/-- The pair condition of the adjacency scan in `layout_matches`, with
Python operator precedence `(A and B) or C`. -/
def pairCond (i5n i7n : List Char) (ei ej : Entry) : Bool :=
  ((ei.adapter != ej.adapter) && (ei.adapter == i5n) && (ej.adapter == i7n)) ||
    ((ej.adapter == i5n) && (ei.adapter == i7n))

/-- The accumulator loop of `layout_matches` over consecutive entry pairs:
when the pair condition holds, append the second element alone if the
first is already present (by value), else append both. -/
def pairScan (i5n i7n : List Char) : List Entry → List Entry → List Entry
  | acc, ei :: ej :: rest =>
    let acc' :=
      if pairCond i5n i7n ei ej then
        if ei ∈ acc then acc ++ [ej] else acc ++ [ei, ej]
      else acc
    pairScan i5n i7n acc' (ej :: rest)
  | acc, _ => acc

/-- Function `layout_matches` from `src/anglerfish/demux/demux.py`: classify
the entry list of each read into (fragments, singletons, concats, unknowns). -/
def layout_matches (i5n i7n : List Char) :
    List (List Char × List Entry) →
      List (List Char × List Entry) × List (List Char × List Entry) ×
        List (List Char × List Entry) × List (List Char × List Entry)
  | [] => ([], [], [], [])
  | (read, entry_list) :: rest =>
    let prev := layout_matches i5n i7n rest
    let sorted_entries := pairScan i5n i7n [] entry_list
    if entry_list.length = 1 then
      (prev.1, (read, entry_list) :: prev.2.1, prev.2.2.1, prev.2.2.2)
    else if sorted_entries.length = 2 then
      ((read, sortByRstart sorted_entries) :: prev.1, prev.2.1, prev.2.2.1, prev.2.2.2)
    else if 2 < sorted_entries.length then
      (prev.1, prev.2.1, (read, sortByRstart sorted_entries) :: prev.2.2.1, prev.2.2.2)
    else
      (prev.1, prev.2.1, prev.2.2.1, (read, entry_list) :: prev.2.2.2)

/-- All read ids of the four buckets returned by `layout_matches`. -/
def layoutKeys
    (t : List (List Char × List Entry) × List (List Char × List Entry) ×
      List (List Char × List Entry) × List (List Char × List Entry)) :
    List (List Char) :=
  t.1.map Prod.fst ++ t.2.1.map Prod.fst ++ t.2.2.1.map Prod.fst ++
    t.2.2.2.map Prod.fst

/-- Claim C4: fragment layout is a total partition - for an input mapping
of read ids to non-empty entry lists, every read id occurs exactly once
across the four returned dicts, and no other id occurs: the multiplicity
of any id among the four key sets equals its multiplicity (0 or 1) among
the input keys. -/
theorem layout_matches_partition (i5n i7n : List Char)
    (input : List (List Char × List Entry))
    (hnd : (input.map Prod.fst).Nodup)
    (hne : ∀ p ∈ input, p.2 ≠ []) (r : List Char) :
    (layoutKeys (layout_matches i5n i7n input)).count r =
      (input.map Prod.fst).count r := by
  induction input with
  | nil => simp [layout_matches, layoutKeys]
  | cons p rest ih =>
    have hnd' : (rest.map Prod.fst).Nodup := by
      rw [List.map_cons, List.nodup_cons] at hnd
      exact hnd.2
    have hne' : ∀ q ∈ rest, q.2 ≠ [] := fun q hq => hne q (List.mem_cons_of_mem _ hq)
    have ih' := ih hnd' hne'
    obtain ⟨read, el⟩ := p
    simp only [layout_matches]
    split_ifs with h1 h2 h3 <;>
      by_cases hr : read = r <;>
        simp [layoutKeys, List.count_append, List.count_cons, hr] at ih' ⊢ <;>
          omega

theorem layout_matches_partition_witness :
    (layoutKeys (layout_matches (String.data "i5") (String.data "i7")
        [(String.data "r1",
          [⟨String.data "r1", String.data "i5", 100, 0, 10, String.data "+",
            [], [], 60, none, none⟩]),
         (String.data "r2",
          [⟨String.data "r2", String.data "i5", 100, 0, 10, String.data "+",
            [], [], 60, none, none⟩,
           ⟨String.data "r2", String.data "i7", 100, 50, 60, String.data "+",
            [], [], 60, none, none⟩])])).count (String.data "r1") =
      (([(String.data "r1",
          [⟨String.data "r1", String.data "i5", 100, 0, 10, String.data "+",
            [], [], 60, none, none⟩]),
        (String.data "r2",
          [⟨String.data "r2", String.data "i5", 100, 0, 10, String.data "+",
            [], [], 60, none, none⟩,
           ⟨String.data "r2", String.data "i7", 100, 50, 60, String.data "+",
            [], [], 60, none, none⟩])] :
        List (List Char × List Entry)).map Prod.fst).count (String.data "r1") :=
  layout_matches_partition (String.data "i5") (String.data "i7") _
    (by decide) (by decide) (String.data "r1")

/-- Claim C5: three alternating entries named i5, i7, i5 at alignment
start positions 0, 30, 80 are classified as a Concat, and the Concat entry
list retains all three entries sorted by alignment start position. -/
theorem layout_matches_concat_example :
    layout_matches (String.data "i5") (String.data "i7")
      [(String.data "r",
        [⟨String.data "r", String.data "i5", 100, 0, 10, String.data "+",
          [], [], 60, none, none⟩,
         ⟨String.data "r", String.data "i7", 100, 30, 40, String.data "+",
          [], [], 60, none, none⟩,
         ⟨String.data "r", String.data "i5", 100, 80, 90, String.data "+",
          [], [], 60, none, none⟩])] =
      ([], [],
        [(String.data "r",
          [⟨String.data "r", String.data "i5", 100, 0, 10, String.data "+",
            [], [], 60, none, none⟩,
           ⟨String.data "r", String.data "i7", 100, 30, 40, String.data "+",
            [], [], 60, none, none⟩,
           ⟨String.data "r", String.data "i5", 100, 80, 90, String.data "+",
            [], [], 60, none, none⟩])], []) := by
  rfl

/-- One side of an adaptor, holding the fields of the `Adaptor` class read
by `cluster_matches`: the optional expected index sequence and the
optional UMI lengths before/after the index. -/
structure AdaptorEnd where
  index_seq : Option (List Char)
  len_umi_before_index : Option Nat
  len_umi_after_index : Option Nat
  deriving DecidableEq, Repr

/-- An adaptor: its i5 and i7 ends. -/
structure Adaptor where
  i5 : AdaptorEnd
  i7 : AdaptorEnd
  deriving DecidableEq, Repr

/-- One `(sample_name, adaptor, fastq)` row of the sample sheet as passed
to `cluster_matches`. -/
abbrev SampleAdaptor : Type := List Char × Adaptor × List Char

/-- Biopython nucleotide complement, preserving case. -/
def compBase (c : Char) : Char :=
  match c with
  | 'A' => 'T' | 'T' => 'A' | 'C' => 'G' | 'G' => 'C'
  | 'a' => 't' | 't' => 'a' | 'c' => 'g' | 'g' => 'c'
  | 'R' => 'Y' | 'Y' => 'R' | 'K' => 'M' | 'M' => 'K'
  | 'B' => 'V' | 'V' => 'B' | 'D' => 'H' | 'H' => 'D'
  | 'r' => 'y' | 'y' => 'r' | 'k' => 'm' | 'm' => 'k'
  | 'b' => 'v' | 'v' => 'b' | 'd' => 'h' | 'h' => 'd'
  | other => other

/-- Python `str(Seq(s).reverse_complement())`. -/
def revComp (s : List Char) : List Char :=
  (s.map compBase).reverse

/-- A six-column bed-like output row of `cluster_matches`:
`[read, start_insert, end_insert, label, "999", "."]`. -/
structure Bed where
  read : List Char
  start : Int
  stop : Int
  label : List Char
  score : List Char
  strand : List Char
  deriving DecidableEq, Repr

/-- What the `cluster_matches` loop body does with one read: each `continue`
path is its own constructor, and the two `append` paths carry the row. -/
inductive ReadOutcome where
  | noFragment
  | ambiguous
  | shortInsert
  | droppedOverDist
  | unmatchedRecord (rec : Bed)
  | matchedRecord (rec : Bed)
  deriving DecidableEq, Repr

/-- The bed row emitted for the read, if any. -/
def ReadOutcome.emitted : ReadOutcome → Option Bed
  | .unmatchedRecord r => some r
  | .matchedRecord r => some r
  | _ => none

/-- The per-candidate distance loop of `cluster_matches`: for each sample
adaptor, the i5/i7 sides contribute a `parse_cs` distance when that side
has an expected index sequence (reverse-complemented when the run flag is
set) and zero otherwise; `fi5`/`fi7` keep the spans recovered by the most
recent `parse_cs` call on that side. -/
def distLoop (i7r i5r : Bool) (i5e i7e : Entry) :
    List SampleAdaptor → List Char → List Char →
      List Nat × List Char × List Char
  | [], fi5, fi7 => ([], fi5, fi7)
  | (_, ad, _) :: rest, fi5, fi7 =>
    let p1 :=
      match ad.i5.index_seq with
      | none => (fi5, 0)
      | some s =>
        parse_cs i5e.cs (if i5r then revComp s else s)
          ad.i5.len_umi_before_index ad.i5.len_umi_after_index
    let p2 :=
      match ad.i7.index_seq with
      | none => (fi7, 0)
      | some s =>
        parse_cs i7e.cs (if i7r then revComp s else s)
          ad.i7.len_umi_before_index ad.i7.len_umi_after_index
    let r := distLoop i7r i5r i5e i7e rest p1.1 p2.1
    ((p1.2 + p2.2) :: r.1, r.2)

/-- The minimum of a list of distances (0 for the empty list, on which the
Python code would instead raise at `min(range(0), ...)`). -/
def listMin : List Nat → Nat
  | [] => 0
  | x :: rest => rest.foldl min x

/-- Python `min(range(len(dists)), key=dists.__getitem__)`: the first index
attaining the minimum value. -/
def argmin (l : List Nat) : Nat :=
  l.indexOf (listMin l)

/-- Python `"+".join(i for i in [fi7, fi5] if not i == "")`. -/
def joinPlus (fi7 fi5 : List Char) : List Char :=
  List.intercalate ['+'] (([fi7, fi5]).filter (fun i => !i.isEmpty))

/-- Placeholder row used to totalise list indexing that Python guards by
construction. -/
def dummySampleAdaptor : SampleAdaptor :=
  ([], ⟨⟨none, none, none⟩, ⟨none, none, none⟩⟩, [])

/-- The body of the `cluster_matches` loop after the i5/i7 orientation has
been identified: compute all candidate distances, drop ties at the
minimum, drop degenerate insert spans, route over-threshold reads to the
diagnostic unmatched output when the recovered spans are full length, and
otherwise emit the matched row for the winning sample. -/
def processOriented (sa : List SampleAdaptor) (max_distance : Nat)
    (i7r i5r : Bool) (read : List Char) (i5e i7e : Entry) : ReadOutcome :=
  let r := distLoop i7r i5r i5e i7e sa [] []
  let dists := r.1
  let fi5 := r.2.1
  let fi7 := r.2.2
  let index_min := argmin dists
  if 1 < dists.count (dists.getD index_min 0) then .ambiguous
  else
    let start_insert : Int := min i5e.rend i7e.rend
    let end_insert : Int := max i7e.rstart i5e.rstart
    if end_insert - start_insert < 10 then .shortInsert
    else if max_distance < dists.getD index_min 0 then
      let lastAd := ((sa.getLast?).getD dummySampleAdaptor).2.1
      if fi7.length + fi5.length =
          (lastAd.i7.index_seq.getD []).length + (lastAd.i5.index_seq.getD []).length
      then
        .unmatchedRecord
          ⟨read, start_insert, end_insert, joinPlus fi7 fi5,
            String.data "999", String.data "."⟩
      else .droppedOverDist
    else
      .matchedRecord
        ⟨read, start_insert, end_insert, (sa.getD index_min dummySampleAdaptor).1,
          String.data "999", String.data "."⟩

/-- Python `adapter[-2:]`: the last two characters of the adaptor name. -/
def lastTwo (s : List Char) : List Char :=
  s.drop (s.length - 2)

/-- The i5/i7 orientation test at the top of the `cluster_matches` loop. -/
def orientFragment (a0 a1 : Entry) : Option (Entry × Entry) :=
  if lastTwo a0.adapter = String.data "i5" ∧ lastTwo a1.adapter = String.data "i7" then
    some (a0, a1)
  else if lastTwo a1.adapter = String.data "i5" ∧ lastTwo a0.adapter = String.data "i7" then
    some (a1, a0)
  else none

/-- One full iteration of the `cluster_matches` loop for a read whose
fragment alignments are `a0` and `a1` (`alignments[0]` / `alignments[1]`:
`layout_matches` fragments always hold exactly two entries). -/
def processRead (sa : List SampleAdaptor) (max_distance : Nat)
    (i7r i5r : Bool) (read : List Char) (a0 a1 : Entry) : ReadOutcome :=
  match orientFragment a0 a1 with
  | some (i5e, i7e) => processOriented sa max_distance i7r i5r read i5e i7e
  | none => .noFragment

/-- Function `cluster_matches` from `src/anglerfish/demux/demux.py`, returning
`(unmatched_bed, matched_bed)` over the fragment reads. -/
def cluster_matches (sa : List SampleAdaptor) (max_distance : Nat)
    (i7r i5r : Bool) :
    List (List Char × Entry × Entry) → List Bed × List Bed
  | [] => ([], [])
  | (read, a0, a1) :: rest =>
    let prev := cluster_matches sa max_distance i7r i5r rest
    match processRead sa max_distance i7r i5r read a0 a1 with
    | .unmatchedRecord r => (r :: prev.1, prev.2)
    | .matchedRecord r => (prev.1, r :: prev.2)
    | _ => prev

lemma foldl_min_le_init (l : List Nat) : ∀ a : Nat, l.foldl min a ≤ a := by
  induction l with
  | nil => intro a; simp
  | cons x xs ih => intro a; exact le_trans (ih (min a x)) (min_le_left a x)

lemma foldl_min_le_mem (l : List Nat) : ∀ (a x : Nat), x ∈ l → l.foldl min a ≤ x := by
  induction l with
  | nil => intro a x hx; cases hx
  | cons y ys ih =>
    intro a x hx
    rcases List.mem_cons.mp hx with h | h
    · subst h
      exact le_trans (foldl_min_le_init ys (min a x)) (min_le_right a x)
    · exact ih (min a y) x h

lemma foldl_min_mem_or (l : List Nat) :
    ∀ a : Nat, l.foldl min a = a ∨ l.foldl min a ∈ l := by
  induction l with
  | nil => intro a; left; rfl
  | cons x xs ih =>
    intro a
    rcases ih (min a x) with h | h
    · rcases Nat.le_total a x with hax | hxa
      · left; rw [List.foldl_cons, h, min_eq_left hax]
      · right
        rw [List.foldl_cons, h, min_eq_right hxa]
        exact List.mem_cons_self x xs
    · right
      rw [List.foldl_cons]
      exact List.mem_cons_of_mem x h

lemma listMin_le (l : List Nat) (x : Nat) (hx : x ∈ l) : listMin l ≤ x := by
  cases l with
  | nil => cases hx
  | cons y ys =>
    rcases List.mem_cons.mp hx with h | h
    · subst h; exact foldl_min_le_init ys x
    · exact foldl_min_le_mem ys y x h

lemma listMin_mem (l : List Nat) (hl : l ≠ []) : listMin l ∈ l := by
  cases l with
  | nil => exact absurd rfl hl
  | cons y ys =>
    rcases foldl_min_mem_or ys y with h | h
    · simp only [listMin, h]
      exact List.mem_cons_self y ys
    · exact List.mem_cons_of_mem y (by simpa [listMin] using h)

lemma getD_indexOf (l : List Nat) (a : Nat) (h : a ∈ l) :
    l.getD (l.indexOf a) 0 = a := by
  induction l with
  | nil => cases h
  | cons x xs ih =>
    by_cases hx : x = a
    · subst hx
      rw [List.indexOf_cons_self]
      rfl
    · have hmem : a ∈ xs := by
        rcases List.mem_cons.mp h with h' | h'
        · exact absurd h'.symm hx
        · exact h'
      rw [List.indexOf_cons_ne _ hx, Nat.succ_eq_add_one, List.getD_cons_succ]
      exact ih hmem

lemma getD_argmin (l : List Nat) (m : Nat) (hm : m ∈ l)
    (hmin : ∀ k, k < l.length → m ≤ l.getD k 0) :
    l.getD (argmin l) 0 = m := by
  have h1 : listMin l ≤ m := listMin_le l m hm
  have h2 : m ≤ listMin l := by
    obtain ⟨n, hn, he⟩ := List.mem_iff_getElem.mp (listMin_mem l (List.ne_nil_of_mem hm))
    have hk := hmin n hn
    rw [List.getD_eq_getElem l 0 hn, he] at hk
    exact hk
  rw [argmin, le_antisymm h1 h2, getD_indexOf l m hm]

lemma processRead_orient (sa : List SampleAdaptor) (max_distance : Nat)
    (i7r i5r : Bool) (read : List Char) (a0 a1 i5e i7e : Entry)
    (hor : orientFragment a0 a1 = some (i5e, i7e)) :
    processRead sa max_distance i7r i5r read a0 a1 =
      processOriented sa max_distance i7r i5r read i5e i7e := by
  unfold processRead
  rw [hor]

/-- Claim C1: in `cluster_matches`, if more than one candidate sample ties
at the minimum total index distance for a fragment, the read is skipped:
no matched and no unmatched record is emitted for it, so it is matched to
no candidate. -/
theorem cluster_matches_tie_skips (sa : List SampleAdaptor) (max_distance : Nat)
    (i7r i5r : Bool) (read : List Char) (a0 a1 i5e i7e : Entry)
    (dists : List Nat) (fi5 fi7 : List Char) (m : Nat)
    (hor : orientFragment a0 a1 = some (i5e, i7e))
    (hd : distLoop i7r i5r i5e i7e sa [] [] = (dists, fi5, fi7))
    (hmin : ∀ k, k < dists.length → m ≤ dists.getD k 0)
    (htie : 1 < dists.count m) :
    (processRead sa max_distance i7r i5r read a0 a1).emitted = none := by
  have hmem : m ∈ dists := List.count_pos_iff.mp (by omega)
  have hagd : dists.getD (argmin dists) 0 = m := getD_argmin dists m hmem hmin
  rw [processRead_orient sa max_distance i7r i5r read a0 a1 i5e i7e hor]
  unfold processOriented
  simp only [hd, hagd]
  rw [if_pos htie]
  rfl

theorem cluster_matches_tie_skips_witness :
    (processRead
      [(String.data "s1",
        ⟨⟨none, none, none⟩, ⟨some (String.data "acgg"), none, none⟩⟩, []),
       (String.data "s2",
        ⟨⟨none, none, none⟩, ⟨some (String.data "acgg"), none, none⟩⟩, [])]
      3 false false (String.data "r")
      ⟨String.data "r", String.data "x_i5", 200, 0, 20, String.data "+", [], [],
        60, none, none⟩
      ⟨String.data "r", String.data "x_i7", 200, 100, 120, String.data "+", [],
        String.data "*na*nc:8", 60, none, none⟩).emitted = none :=
  cluster_matches_tie_skips
    [(String.data "s1",
      ⟨⟨none, none, none⟩, ⟨some (String.data "acgg"), none, none⟩⟩, []),
     (String.data "s2",
      ⟨⟨none, none, none⟩, ⟨some (String.data "acgg"), none, none⟩⟩, [])]
    3 false false (String.data "r")
    ⟨String.data "r", String.data "x_i5", 200, 0, 20, String.data "+", [], [],
      60, none, none⟩
    ⟨String.data "r", String.data "x_i7", 200, 100, 120, String.data "+", [],
      String.data "*na*nc:8", 60, none, none⟩
    ⟨String.data "r", String.data "x_i5", 200, 0, 20, String.data "+", [], [],
      60, none, none⟩
    ⟨String.data "r", String.data "x_i7", 200, 100, 120, String.data "+", [],
      String.data "*na*nc:8", 60, none, none⟩
    [2, 2] [] ['a', 'c'] 2
    (by decide)
    (by simp [distLoop, parse_cs, csFind, levDist, posOpt, isBase, Char.toLower])
    (by decide) (by decide)


lemma orientFragment_cases (a0 a1 x y : Entry)
    (h : orientFragment a0 a1 = some (x, y)) :
    (x = a0 ∧ y = a1) ∨ (x = a1 ∧ y = a0) := by
  unfold orientFragment at h
  split_ifs at h
  · simp only [Option.some.injEq, Prod.mk.injEq] at h
    exact Or.inl ⟨h.1.symm, h.2.symm⟩
  · simp only [Option.some.injEq, Prod.mk.injEq] at h
    exact Or.inr ⟨h.1.symm, h.2.symm⟩

lemma processOriented_short (sa : List SampleAdaptor) (max_distance : Nat)
    (i7r i5r : Bool) (read : List Char) (i5e i7e : Entry)
    (hspan : max i7e.rstart i5e.rstart - min i5e.rend i7e.rend < 10) :
    (processOriented sa max_distance i7r i5r read i5e i7e).emitted = none := by
  simp only [processOriented]
  split_ifs <;> rfl

/-- Claim C6: in `cluster_matches` the insert span runs from
`min(i5 end, i7 end)` to `max(i7 start, i5 start)`, and any fragment whose
span length is below 10 is skipped with no record emitted, whatever its
index distances are. -/
theorem cluster_matches_short_insert (sa : List SampleAdaptor)
    (max_distance : Nat) (i7r i5r : Bool) (read : List Char) (a0 a1 : Entry)
    (hsa : sa ≠ [])
    (hspan : max a0.rstart a1.rstart - min a0.rend a1.rend < 10) :
    (processRead sa max_distance i7r i5r read a0 a1).emitted = none := by
  cases hor : orientFragment a0 a1 with
  | none =>
    unfold processRead
    rw [hor]
    rfl
  | some p =>
    obtain ⟨x, y⟩ := p
    rw [processRead_orient sa max_distance i7r i5r read a0 a1 x y hor]
    rcases orientFragment_cases a0 a1 x y hor with ⟨rfl, rfl⟩ | ⟨rfl, rfl⟩
    · exact processOriented_short _ _ _ _ _ _ _ (by rw [max_comm]; exact hspan)
    · exact processOriented_short _ _ _ _ _ _ _ (by rw [min_comm]; exact hspan)

theorem cluster_matches_short_insert_witness :
    (processRead
      [(String.data "s1", ⟨⟨none, none, none⟩, ⟨none, none, none⟩⟩, [])]
      3 false false (String.data "r")
      ⟨String.data "r", String.data "x_i5", 200, 0, 20, String.data "+", [], [],
        60, none, none⟩
      ⟨String.data "r", String.data "x_i7", 200, 25, 45, String.data "+", [], [],
        60, none, none⟩).emitted = none :=
  cluster_matches_short_insert
    [(String.data "s1", ⟨⟨none, none, none⟩, ⟨none, none, none⟩⟩, [])]
    3 false false (String.data "r")
    ⟨String.data "r", String.data "x_i5", 200, 0, 20, String.data "+", [], [],
      60, none, none⟩
    ⟨String.data "r", String.data "x_i7", 200, 25, 45, String.data "+", [], [],
      60, none, none⟩
    (by decide) (by decide)

/-- Claim C7: in `cluster_matches`, when the (unique) minimum total
distance exceeds the allowed maximum, an unmatched diagnostic row is
emitted if and only if the recovered spans are full length - the summed
lengths of the recovered i7 and i5 spans equal the summed lengths of the
expected index sequences (of the adaptor of the last candidate, whose values
the loop variables hold after the loop) - and that row is labelled by the
non-empty recovered index strings joined with a plus sign; otherwise the
read is dropped with no record. -/
theorem cluster_matches_over_threshold (sa : List SampleAdaptor)
    (max_distance : Nat) (i7r i5r : Bool) (read : List Char)
    (a0 a1 i5e i7e : Entry) (dists : List Nat) (fi5 fi7 : List Char)
    (m : Nat) (sn : List Char) (lastAd : Adaptor) (so : List Char)
    (hor : orientFragment a0 a1 = some (i5e, i7e))
    (hd : distLoop i7r i5r i5e i7e sa [] [] = (dists, fi5, fi7))
    (hmem : m ∈ dists)
    (hmin : ∀ k, k < dists.length → m ≤ dists.getD k 0)
    (hone : dists.count m = 1)
    (hspan : 10 ≤ max i7e.rstart i5e.rstart - min i5e.rend i7e.rend)
    (hover : max_distance < m)
    (hlast : sa.getLast? = some (sn, lastAd, so)) :
    processRead sa max_distance i7r i5r read a0 a1 =
      if fi7.length + fi5.length =
          (lastAd.i7.index_seq.getD []).length +
            (lastAd.i5.index_seq.getD []).length then
        ReadOutcome.unmatchedRecord
          ⟨read, min i5e.rend i7e.rend, max i7e.rstart i5e.rstart,
            joinPlus fi7 fi5, String.data "999", String.data "."⟩
      else ReadOutcome.droppedOverDist := by
  have hagd : dists.getD (argmin dists) 0 = m := getD_argmin dists m hmem hmin
  rw [processRead_orient sa max_distance i7r i5r read a0 a1 i5e i7e hor]
  simp only [processOriented, hd, hagd, hlast, Option.getD_some]
  rw [if_neg (by omega : ¬1 < dists.count m),
    if_neg (not_lt.mpr hspan), if_pos hover]

theorem cluster_matches_over_threshold_witness :
    processRead
      [(String.data "s1",
        ⟨⟨none, none, none⟩, ⟨some (String.data "aaaa"), none, none⟩⟩, [])]
      2 false false (String.data "r")
      ⟨String.data "r", String.data "x_i5", 300, 0, 20, String.data "+", [], [],
        60, none, none⟩
      ⟨String.data "r", String.data "x_i7", 300, 100, 120, String.data "+", [],
        String.data "*nc*nc*nc*nc", 60, none, none⟩ =
      (if (['c', 'c', 'c', 'c'] : List Char).length + ([] : List Char).length =
          ((some (String.data "aaaa")).getD []).length +
            ((none : Option (List Char)).getD []).length then
        ReadOutcome.unmatchedRecord
          ⟨String.data "r", min (20 : Int) 120, max (100 : Int) 0,
            joinPlus ['c', 'c', 'c', 'c'] [], String.data "999", String.data "."⟩
      else ReadOutcome.droppedOverDist) :=
  cluster_matches_over_threshold
    [(String.data "s1",
      ⟨⟨none, none, none⟩, ⟨some (String.data "aaaa"), none, none⟩⟩, [])]
    2 false false (String.data "r")
    ⟨String.data "r", String.data "x_i5", 300, 0, 20, String.data "+", [], [],
      60, none, none⟩
    ⟨String.data "r", String.data "x_i7", 300, 100, 120, String.data "+", [],
      String.data "*nc*nc*nc*nc", 60, none, none⟩
    ⟨String.data "r", String.data "x_i5", 300, 0, 20, String.data "+", [], [],
      60, none, none⟩
    ⟨String.data "r", String.data "x_i7", 300, 100, 120, String.data "+", [],
      String.data "*nc*nc*nc*nc", 60, none, none⟩
    [4] [] ['c', 'c', 'c', 'c'] 4 (String.data "s1")
    ⟨⟨none, none, none⟩, ⟨some (String.data "aaaa"), none, none⟩⟩ []
    (by decide)
    (by simp [distLoop, parse_cs, csFind, levDist, posOpt, isBase, Char.toLower])
    (by decide) (by decide) (by decide) (by decide) (by decide) (by decide)

/-- Normalise a Python slice bound for a sequence of length `n`: negative
indices count from the end, out-of-range indices clamp. -/
def pyIdx (n : Nat) (i : Int) : Nat :=
  if i < 0 then ((n : Int) + i).toNat else min i.toNat n

/-- Python `s[i:j]` on a character list. -/
def pySlice (l : List Char) (i j : Int) : List Char :=
  (l.take (pyIdx l.length j)).drop (pyIdx l.length i)

/-- One output FASTQ record of `write_demuxedfastq` (title line without
the leading at sign, sequence line, quality line). -/
structure FqRecord where
  title : List Char
  seq : List Char
  qual : List Char
  deriving DecidableEq, Repr

/-- Placeholder bed row for totalised indexing. -/
def dummyBed : Bed :=
  ⟨[], 0, 0, [], [], []⟩

/-- The inner `for bed in beds[new_title[0]]` loop of `write_demuxedfastq`:
`new_title[0] += "_" + bed[3]` mutates the id token, so sample suffixes
accumulate across the records emitted for one read. -/
def demuxLoop (tok0 : List Char) (restToks : List (List Char))
    (seq qual : List Char) : List Bed → List FqRecord
  | [] => []
  | bed :: rest =>
    let tok0' := tok0 ++ '_' :: bed.label
    ⟨List.intercalate [' '] (tok0' :: restToks),
      pySlice seq bed.start bed.stop, pySlice qual bed.start bed.stop⟩ ::
      demuxLoop tok0' restToks seq qual rest

/-- Processing of one decoded FASTQ triple by `write_demuxedfastq`: reads
whose first title token has no bed records produce no output.  (A title
with no tokens at all would raise an `IndexError` in the Python code; it
is modelled as producing no output and not exercised by the claims.) -/
def write_demuxedfastq_record (beds : List (List Char × List Bed))
    (title seq qual : List Char) : List FqRecord :=
  match splitWs title with
  | [] => []
  | t0 :: restToks =>
    match beds.lookup t0 with
    | none => []
    | some bs => demuxLoop t0 restToks seq qual bs

/-- The extraction pass of `write_demuxedfastq` over a decoded stream of
(title, sequence, quality) triples. -/
def write_demuxedfastq (beds : List (List Char × List Bed))
    (records : List (List Char × List Char × List Char)) : List FqRecord :=
  (records.map (fun r => write_demuxedfastq_record beds r.1 r.2.1 r.2.2)).flatten

/-- Claim C10: when one read id has several match records the sample
suffixes accumulate: the record emitted for bed `i` carries the id token
extended by the underscore-joined labels of beds `0..i`, and the slice of
bed `i`. -/
theorem write_demuxedfastq_suffixes_accumulate (tok0 : List Char)
    (restToks : List (List Char)) (seq qual : List Char) (bs : List Bed)
    (i : Nat) (hi : i < bs.length) :
    (demuxLoop tok0 restToks seq qual bs).getD i ⟨[], [], []⟩ =
      ⟨List.intercalate [' ']
          ((tok0 ++ ((bs.take (i + 1)).map (fun b => '_' :: b.label)).flatten) ::
            restToks),
        pySlice seq (bs.getD i dummyBed).start (bs.getD i dummyBed).stop,
        pySlice qual (bs.getD i dummyBed).start (bs.getD i dummyBed).stop⟩ := by
  induction bs generalizing tok0 i with
  | nil => cases hi
  | cons b rest ih =>
    cases i with
    | zero =>
      simp [demuxLoop, List.take_succ_cons, List.getD_cons_zero]
    | succ i' =>
      have hi' : i' < rest.length := by
        simpa [List.length_cons, Nat.succ_lt_succ_iff] using hi
      simp only [demuxLoop, List.getD_cons_succ, ih (tok0 ++ '_' :: b.label) i' hi',
        List.take_succ_cons, List.map_cons, List.flatten_cons, List.append_assoc]

theorem write_demuxedfastq_suffixes_accumulate_witness :
    (demuxLoop (String.data "read1") [String.data "extra"] (String.data "ACGT")
        (String.data "FFFF")
        [⟨String.data "read1", 0, 2, String.data "sampleA", String.data "999",
          String.data "."⟩,
         ⟨String.data "read1", 1, 3, String.data "sampleB", String.data "999",
          String.data "."⟩]).getD 1 ⟨[], [], []⟩ =
      ⟨List.intercalate [' ']
          ((String.data "read1" ++
              ((([⟨String.data "read1", 0, 2, String.data "sampleA",
                    String.data "999", String.data "."⟩,
                  ⟨String.data "read1", 1, 3, String.data "sampleB",
                    String.data "999", String.data "."⟩] : List Bed).take 2).map
                (fun b => '_' :: b.label)).flatten) ::
            [String.data "extra"]),
        pySlice (String.data "ACGT")
          (([⟨String.data "read1", 0, 2, String.data "sampleA", String.data "999",
              String.data "."⟩,
             ⟨String.data "read1", 1, 3, String.data "sampleB", String.data "999",
              String.data "."⟩] : List Bed).getD 1 dummyBed).start
          (([⟨String.data "read1", 0, 2, String.data "sampleA", String.data "999",
              String.data "."⟩,
             ⟨String.data "read1", 1, 3, String.data "sampleB", String.data "999",
              String.data "."⟩] : List Bed).getD 1 dummyBed).stop,
        pySlice (String.data "FFFF")
          (([⟨String.data "read1", 0, 2, String.data "sampleA", String.data "999",
              String.data "."⟩,
             ⟨String.data "read1", 1, 3, String.data "sampleB", String.data "999",
              String.data "."⟩] : List Bed).getD 1 dummyBed).start
          (([⟨String.data "read1", 0, 2, String.data "sampleA", String.data "999",
              String.data "."⟩,
             ⟨String.data "read1", 1, 3, String.data "sampleB", String.data "999",
              String.data "."⟩] : List Bed).getD 1 dummyBed).stop⟩ :=
  write_demuxedfastq_suffixes_accumulate (String.data "read1")
    [String.data "extra"] (String.data "ACGT") (String.data "FFFF")
    [⟨String.data "read1", 0, 2, String.data "sampleA", String.data "999",
      String.data "."⟩,
     ⟨String.data "read1", 1, 3, String.data "sampleB", String.data "999",
      String.data "."⟩] 1 (by decide)

/-- Claim C9: with the single match record `(read1, 10, 20, "sampleA")`
for token `read1`, an input record titled `"read1 extra"` with sequence
and quality of length at least 20 yields exactly one output record titled
`"read1_sampleA extra"` whose sequence and quality are the `[10:20]`
slices (of length 10); and any read whose first title token has no match
record produces no output. -/
theorem write_demuxedfastq_extract (beds : List (List Char × List Bed))
    (seq qual : List Char)
    (hb : beds.lookup (String.data "read1") =
      some [⟨String.data "read1", 10, 20, String.data "sampleA",
        String.data "999", String.data "."⟩])
    (hs : 20 ≤ seq.length) (hq : 20 ≤ qual.length) :
    write_demuxedfastq_record beds (String.data "read1 extra") seq qual =
      [⟨String.data "read1_sampleA extra", pySlice seq 10 20,
        pySlice qual 10 20⟩] ∧
    (pySlice seq 10 20).length = 10 ∧
    (pySlice qual 10 20).length = 10 ∧
    ∀ t s q, splitWs t ≠ [] →
      beds.lookup ((splitWs t).headD []) = none →
      write_demuxedfastq_record beds t s q = [] := by
  have hsplit : splitWs (String.data "read1 extra") =
      [String.data "read1", String.data "extra"] := by decide
  refine ⟨?_, ?_, ?_, ?_⟩
  · simp only [write_demuxedfastq_record, hsplit, hb, demuxLoop]
    have ht : List.intercalate [' ']
        ((String.data "read1" ++ '_' :: String.data "sampleA") ::
          [String.data "extra"]) = String.data "read1_sampleA extra" := by decide
    rw [ht]
  · have h1 : pyIdx seq.length 20 = 20 := by simp [pyIdx]; omega
    have h2 : pyIdx seq.length 10 = 10 := by simp [pyIdx]; omega
    simp [pySlice, h1, h2]
    omega
  · have h1 : pyIdx qual.length 20 = 20 := by simp [pyIdx]; omega
    have h2 : pyIdx qual.length 10 = 10 := by simp [pyIdx]; omega
    simp [pySlice, h1, h2]
    omega
  · intro t s q hne hl
    unfold write_demuxedfastq_record
    cases hsp : splitWs t with
    | nil => rfl
    | cons t0 ts =>
      rw [hsp] at hl
      simp only [List.headD_cons] at hl
      simp only [hl]

theorem write_demuxedfastq_extract_witness :
    write_demuxedfastq_record
        [(String.data "read1",
          [⟨String.data "read1", 10, 20, String.data "sampleA",
            String.data "999", String.data "."⟩])]
        (String.data "read1 extra") (String.data "AAAAAAAAAACCCCCCCCCC")
        (String.data "FFFFFFFFFFGGGGGGGGGG") =
      [⟨String.data "read1_sampleA extra",
        pySlice (String.data "AAAAAAAAAACCCCCCCCCC") 10 20,
        pySlice (String.data "FFFFFFFFFFGGGGGGGGGG") 10 20⟩] ∧
    (pySlice (String.data "AAAAAAAAAACCCCCCCCCC") 10 20).length = 10 ∧
    (pySlice (String.data "FFFFFFFFFFGGGGGGGGGG") 10 20).length = 10 ∧
    ∀ t s q, splitWs t ≠ [] →
      ([(String.data "read1",
        [⟨String.data "read1", 10, 20, String.data "sampleA",
          String.data "999", String.data "."⟩])] :
        List (List Char × List Bed)).lookup ((splitWs t).headD []) = none →
      write_demuxedfastq_record
        [(String.data "read1",
          [⟨String.data "read1", 10, 20, String.data "sampleA",
            String.data "999", String.data "."⟩])] t s q = [] :=
  write_demuxedfastq_extract
    [(String.data "read1",
      [⟨String.data "read1", 10, 20, String.data "sampleA",
        String.data "999", String.data "."⟩])]
    (String.data "AAAAAAAAAACCCCCCCCCC") (String.data "FFFFFFFFFFGGGGGGGGGG")
    (by decide) (by decide) (by decide)
